import Mathlib

/-!
# Verification of the fin-stats ratio-computation and alignment engine

Shallow embedding of `src/fin_stats/main.py`.

Numeric values are modelled by `EF`, rational numbers extended with the
IEEE special values `+inf`, `-inf` and `nan`: the Python code computes on
numpy floats, where division by zero yields an infinity (or `nan` for
`0/0`) and never raises, and `x / inf = 0`.  Finite arithmetic is modelled
exactly over `ℚ` (rounding plays no role in any claim considered here).

A pandas `Series` is modelled as a list of `(date, value)` pairs; dates are
naturals encoded as `yyyymmdd`, so date order is numeric order and the
calendar year of a date `d` is `d / 10000`.  A statement table
(`DataFrame` row-indexed by line-item name) is an association list from
line-item names to series; `.loc[name]` is `loc`, raising `KeyError`
(modelled as `Except`/`Option`) when the name is absent.  Binary series
operations pair entries positionally, which coincides with pandas label
alignment under the spec invariant that all series of a company share one
period index; `.iloc[::-1]` is `List.reverse`, and
`.rolling(window=2).mean()` is `rolling2mean` (first entry `nan`, then the
mean of each adjacent pair, `nan`-propagating, as pandas computes it).
-/

set_option autoImplicit false

deriving instance DecidableEq for Except

namespace FinStats

/-- Extended float values: exact rationals plus the IEEE specials. -/
inductive EF : Type where
  | fin : ℚ → EF
  | pinf : EF
  | ninf : EF
  | nan : EF
  deriving DecidableEq

namespace EF

/-- IEEE-style addition (`inf + -inf = nan`, `nan` propagates). -/
def add : EF → EF → EF
  | .nan, _ => .nan
  | _, .nan => .nan
  | .fin a, .fin b => .fin (a + b)
  | .pinf, .ninf => .nan
  | .ninf, .pinf => .nan
  | .pinf, _ => .pinf
  | .ninf, _ => .ninf
  | .fin _, .pinf => .pinf
  | .fin _, .ninf => .ninf

/-- IEEE-style negation. -/
def neg : EF → EF
  | .fin a => .fin (-a)
  | .pinf => .ninf
  | .ninf => .pinf
  | .nan => .nan

/-- IEEE-style subtraction. -/
def sub (x y : EF) : EF := add x (neg y)

/-- IEEE-style multiplication (`0 * inf = nan`, `nan` propagates). -/
def mul : EF → EF → EF
  | .nan, _ => .nan
  | _, .nan => .nan
  | .fin a, .fin b => .fin (a * b)
  | .fin a, .pinf => if 0 < a then .pinf else if a < 0 then .ninf else .nan
  | .fin a, .ninf => if 0 < a then .ninf else if a < 0 then .pinf else .nan
  | .pinf, .fin b => if 0 < b then .pinf else if b < 0 then .ninf else .nan
  | .ninf, .fin b => if 0 < b then .ninf else if b < 0 then .pinf else .nan
  | .pinf, .pinf => .pinf
  | .pinf, .ninf => .ninf
  | .ninf, .pinf => .ninf
  | .ninf, .ninf => .pinf

/-- IEEE-style division: a nonzero finite numerator over (positive) zero is
a signed infinity, `0/0 = nan`, a finite value over an infinity is `0`,
`inf/inf = nan`.  Negative zero does not arise in the embedded code, so
zero is treated as `+0`. -/
def div : EF → EF → EF
  | .nan, _ => .nan
  | _, .nan => .nan
  | .fin a, .fin b =>
      if b = 0 then (if 0 < a then .pinf else if a < 0 then .ninf else .nan)
      else .fin (a / b)
  | .fin _, .pinf => .fin 0
  | .fin _, .ninf => .fin 0
  | .pinf, .fin b => if 0 ≤ b then .pinf else .ninf
  | .ninf, .fin b => if 0 ≤ b then .ninf else .pinf
  | .pinf, .pinf => .nan
  | .pinf, .ninf => .nan
  | .ninf, .pinf => .nan
  | .ninf, .ninf => .nan

end EF

/-- A pandas `Series` with a `DatetimeIndex`: `(date, value)` pairs, dates
encoded `yyyymmdd`. -/
abbrev Series : Type := List (ℕ × EF)

/-- Positional binary operation on two series, keeping the first series'
dates and truncating to the shorter series (pandas label alignment under
the shared-index invariant of the data model). -/
def sbin (f : EF → EF → EF) : Series → Series → Series
  | (d, x) :: xs, (_, y) :: ys => (d, f x y) :: sbin f xs ys
  | _, _ => []

/-- Elementwise series division (`seriesA / seriesB`). -/
def sdiv : Series → Series → Series := sbin EF.div

/-- Elementwise series addition (`seriesA + seriesB`). -/
def sadd : Series → Series → Series := sbin EF.add

/-- Elementwise series subtraction (`seriesA - seriesB`). -/
def ssub : Series → Series → Series := sbin EF.sub

/-- Elementwise series multiplication (`seriesA * seriesB`). -/
def smul : Series → Series → Series := sbin EF.mul

/-- A scalar divided elementwise by a series (`365 / series`). -/
def scalarDiv (c : EF) (s : Series) : Series :=
  s.map (fun p => (p.1, EF.div c p.2))

/-- Tail worker of `rolling2mean`: `prev` is the previous period's value. -/
def rollGo (prev : EF) : Series → Series
  | [] => []
  | (d, v) :: rest => (d, EF.div (EF.add prev v) (EF.fin 2)) :: rollGo v rest

/-- `series.rolling(window=2).mean()`: the first entry is `nan`, every
later entry is the mean of itself and its predecessor (a `nan` input makes
the window mean `nan`, as `min_periods` defaults to the window size). -/
def rolling2mean : Series → Series
  | [] => []
  | (d, v) :: rest => (d, EF.nan) :: rollGo v rest

/-- A statement table (`stock.financials` / `stock.balance_sheet`): rows
keyed by line-item name. -/
abbrev StatementTable : Type := List (String × Series)

/-- `table.loc[item]`: the first row labelled `item`, if any. -/
def loc (t : StatementTable) (item : String) : Option Series :=
  (t.find? (fun p => p.1 == item)).map Prod.snd

/-- A `yf.Ticker` as the engine consumes it: symbol, the two statement
tables and the market snapshot's forward P/E. -/
structure Stock : Type where
  ticker : String
  financials : StatementTable
  balance_sheet : StatementTable
  forwardPE : EF
  deriving DecidableEq

/-- The error a missing line item raises (Python `KeyError`). -/
inductive FinErr : Type where
  | lineItemMissing : String → FinErr
  deriving DecidableEq

/-- Result record of `bang_for_buck` (the DuPont family). -/
structure BfbRes : Type where
  name : String
  profitability : Series
  asset_turn_over : Series
  financial_leverage : Series
  return_on_equity : Series
  deriving DecidableEq

/-- `bang_for_buck`: the DuPont decomposition.  Each source series is
reversed (`.iloc[::-1]`, yfinance stores newest-first) and the balance
sheet items are averaged over two consecutive periods; a missing line item
raises (first lookup in source evaluation order wins). -/
def bang_for_buck (stock : Stock) : Except FinErr BfbRes :=
  match loc stock.financials "Net Income", loc stock.financials "Total Revenue",
      loc stock.balance_sheet "Total Assets",
      loc stock.balance_sheet "Total Stockholder Equity" with
  | some netIncome, some totalRevenue, some totalAssets, some equity =>
      let profitability := sdiv netIncome.reverse totalRevenue.reverse
      let asset_turn_over := sdiv totalRevenue.reverse (rolling2mean totalAssets.reverse)
      let financial_leverage :=
        sdiv (rolling2mean totalAssets.reverse) (rolling2mean equity.reverse)
      let return_on_equity := smul (smul profitability asset_turn_over) financial_leverage
      .ok ⟨stock.ticker, profitability, asset_turn_over, financial_leverage, return_on_equity⟩
  | none, _, _, _ => .error (.lineItemMissing "Net Income")
  | _, none, _, _ => .error (.lineItemMissing "Total Revenue")
  | _, _, none, _ => .error (.lineItemMissing "Total Assets")
  | _, _, _, none => .error (.lineItemMissing "Total Stockholder Equity")

/-- `365 / (CostOfRevenue / rolling2mean Inventory)`, both reversed. -/
def inventory_turn_over_days (costOfRevenue inventory : Series) : Series :=
  scalarDiv (EF.fin 365) (sdiv costOfRevenue.reverse (rolling2mean inventory.reverse))

/-- `365 / (TotalRevenue / rolling2mean NetReceivables)`, both reversed. -/
def accounts_receivable_turn_over_days (totalRevenue netReceivables : Series) : Series :=
  scalarDiv (EF.fin 365) (sdiv totalRevenue.reverse (rolling2mean netReceivables.reverse))

/-- `365 / (CostOfRevenue / rolling2mean AccountsPayable)`, both reversed. -/
def accounts_payable_turn_over_days (costOfRevenue accountsPayable : Series) : Series :=
  scalarDiv (EF.fin 365) (sdiv costOfRevenue.reverse (rolling2mean accountsPayable.reverse))

/-- The body of the `try` block of `cash_conversion_cycle`: only the line
item lookups can fail (numpy float arithmetic never raises). -/
def cash_conversion_cycle_core (stock : Stock) : Except FinErr Series :=
  match loc stock.financials "Cost Of Revenue", loc stock.balance_sheet "Inventory",
      loc stock.financials "Total Revenue", loc stock.balance_sheet "Net Receivables",
      loc stock.balance_sheet "Accounts Payable" with
  | some cor, some inv, some tr, some nr, some ap =>
      .ok (ssub
        (sadd (inventory_turn_over_days cor inv) (accounts_receivable_turn_over_days tr nr))
        (accounts_payable_turn_over_days cor ap))
  | none, _, _, _, _ => .error (.lineItemMissing "Cost Of Revenue")
  | _, none, _, _, _ => .error (.lineItemMissing "Inventory")
  | _, _, none, _, _ => .error (.lineItemMissing "Total Revenue")
  | _, _, _, none, _ => .error (.lineItemMissing "Net Receivables")
  | _, _, _, _, none => .error (.lineItemMissing "Accounts Payable")

/-- The value stored under `"cash_conversion_cycle"`: a series on success,
or the Python scalar `0` installed by the `except` branch. -/
inductive CCCVal : Type where
  | series : Series → CCCVal
  | scalarZero : CCCVal
  deriving DecidableEq

/-- Result record of `cash_conversion_cycle`. -/
structure CCCRes : Type where
  name : String
  cash_conversion_cycle : CCCVal
  deriving DecidableEq

/-- `cash_conversion_cycle`: the `try`/`except` wrapper — any raised error
degrades the whole family to the scalar `0` for that company. -/
def cash_conversion_cycle (stock : Stock) : CCCRes :=
  match cash_conversion_cycle_core stock with
  | .ok ser => ⟨stock.ticker, .series ser⟩
  | .error _ => ⟨stock.ticker, .scalarZero⟩

/-- Result record of `liquidity_and_solvency` (nested dicts flattened to
one record; key paths are unambiguous). -/
structure LiqRes : Type where
  name : String
  current_ratio : Series
  quick_ratio : Series
  liabilities_to_equity : Series
  interest_coverage_ratio : Series
  deriving DecidableEq

/-- `liquidity_and_solvency`: four plain ratio series, no rolling average,
no recovery — a missing line item raises to the caller (first lookup in
source evaluation order wins). -/
def liquidity_and_solvency (stock : Stock) : Except FinErr LiqRes :=
  match loc stock.balance_sheet "Total Liab",
      loc stock.balance_sheet "Total Stockholder Equity",
      loc stock.financials "Ebit", loc stock.financials "Interest Expense",
      loc stock.balance_sheet "Total Current Assets",
      loc stock.balance_sheet "Total Current Liabilities",
      loc stock.balance_sheet "Cash", loc stock.balance_sheet "Short Term Investments",
      loc stock.balance_sheet "Net Receivables" with
  | some totalLiab, some equity, some ebit, some interestExpense, some tca, some tcl,
      some cash, some sti, some netReceivables =>
      let liabilities_to_equity := sdiv totalLiab.reverse equity.reverse
      let interest_coverage_ratio := sdiv ebit.reverse interestExpense.reverse
      let current_ratio := sdiv tca.reverse tcl.reverse
      let quick_ratio :=
        sdiv (sadd (sadd cash.reverse sti.reverse) netReceivables.reverse) tcl.reverse
      .ok ⟨stock.ticker, current_ratio, quick_ratio, liabilities_to_equity,
        interest_coverage_ratio⟩
  | none, _, _, _, _, _, _, _, _ => .error (.lineItemMissing "Total Liab")
  | _, none, _, _, _, _, _, _, _ => .error (.lineItemMissing "Total Stockholder Equity")
  | _, _, none, _, _, _, _, _, _ => .error (.lineItemMissing "Ebit")
  | _, _, _, none, _, _, _, _, _ => .error (.lineItemMissing "Interest Expense")
  | _, _, _, _, none, _, _, _, _ => .error (.lineItemMissing "Total Current Assets")
  | _, _, _, _, _, none, _, _, _ => .error (.lineItemMissing "Total Current Liabilities")
  | _, _, _, _, _, _, none, _, _ => .error (.lineItemMissing "Cash")
  | _, _, _, _, _, _, _, none, _ => .error (.lineItemMissing "Short Term Investments")
  | _, _, _, _, _, _, _, _, none => .error (.lineItemMissing "Net Receivables")

/-- Result record of `equity_analysis` (valuation family). -/
structure EqRes : Type where
  name : String
  pe : EF
  deriving DecidableEq

/-- `equity_analysis`: the forward P/E straight from the market snapshot. -/
def equity_analysis (stock : Stock) : EqRes :=
  ⟨stock.ticker, stock.forwardPE⟩

/-! ## Year alignment and comparison tables -/

/-- Calendar year of a `yyyymmdd`-encoded date (`date.year`). -/
def yearOf (d : ℕ) : ℕ := d / 10000

/-- `series.index.max()`: the largest date, `none` for an empty index. -/
def maxDate : Series → Option ℕ
  | [] => none
  | (d, _) :: rest =>
      match maxDate rest with
      | none => some d
      | some m => some (max d m)

/-- `series.loc[str(year)].values[0]`: pandas partial string indexing by
calendar year, first matching period; `none` models the `KeyError` raised
when no period falls in that year. -/
def lookupYear (s : Series) (y : ℕ) : Option EF :=
  ((s.filter (fun p => yearOf p.1 == y)).head?).map Prod.snd

/-- A cross-company comparison table: fixed column names and one row of
values per company, in insertion order (`pd.DataFrame(p, index=i).transpose()`). -/
structure ComparisonTable : Type where
  cols : List String
  rows : List (String × List EF)
  deriving DecidableEq

/-- The error a year lookup raises in the non-degrading families
(Python `KeyError` from `.loc[year]`). -/
inductive AlignErr : Type where
  | yearNotFound : AlignErr
  deriving DecidableEq

/-- Column order of the DuPont table. -/
def bfbCols : List String :=
  ["profitability", "asset_turn_over", "financial_leverage", "return_on_equity"]

/-- Loop body of `bang_for_buck_df` after the year is fixed: one row of the
four DuPont scalars per company, failing on the first missing year. -/
def bfbRows : List BfbRes → ℕ → Except AlignErr (List (String × List EF))
  | [], _ => .ok []
  | s :: rest, y =>
      match lookupYear s.profitability y, lookupYear s.asset_turn_over y,
          lookupYear s.financial_leverage y, lookupYear s.return_on_equity y with
      | some v1, some v2, some v3, some v4 =>
          match bfbRows rest y with
          | .ok tail => .ok ((s.name, [v1, v2, v3, v4]) :: tail)
          | .error e => .error e
      | _, _, _, _ => .error .yearNotFound

/-- Wrap a rows computation into a table with the given columns. -/
def mkTable (cols : List String) :
    Except AlignErr (List (String × List EF)) → Except AlignErr ComparisonTable
  | .ok rows => .ok ⟨cols, rows⟩
  | .error e => .error e

/-- `bang_for_buck_df`: if no year is supplied it is resolved inside the
loop's first iteration from the first company's `profitability` index (so
once, then reused for every later company); year lookups are not guarded,
a missing year raises. -/
def bang_for_buck_df (stocks : List BfbRes) (year : Option ℕ) :
    Except AlignErr ComparisonTable :=
  match year, stocks with
  | some y, _ => mkTable bfbCols (bfbRows stocks y)
  | none, [] => .ok ⟨bfbCols, []⟩
  | none, s :: _ =>
      match maxDate s.profitability with
      | some d => mkTable bfbCols (bfbRows stocks (yearOf d))
      | none => .error .yearNotFound

/-- Column order of the liquidity/solvency table. -/
def liqCols : List String :=
  ["current_ratio", "quick_ratio", "liabilities_to_equity", "interest_coverage_ratio"]

/-- Loop body of `liquidity_and_solvency_df` after the year is fixed. -/
def liqRows : List LiqRes → ℕ → Except AlignErr (List (String × List EF))
  | [], _ => .ok []
  | s :: rest, y =>
      match lookupYear s.current_ratio y, lookupYear s.quick_ratio y,
          lookupYear s.liabilities_to_equity y, lookupYear s.interest_coverage_ratio y with
      | some v1, some v2, some v3, some v4 =>
          match liqRows rest y with
          | .ok tail => .ok ((s.name, [v1, v2, v3, v4]) :: tail)
          | .error e => .error e
      | _, _, _, _ => .error .yearNotFound

/-- `liquidity_and_solvency_df`: same shape as `bang_for_buck_df`, the
year resolved (when unset) from the first company's `current_ratio`. -/
def liquidity_and_solvency_df (stocks : List LiqRes) (year : Option ℕ) :
    Except AlignErr ComparisonTable :=
  match year, stocks with
  | some y, _ => mkTable liqCols (liqRows stocks y)
  | none, [] => .ok ⟨liqCols, []⟩
  | none, s :: _ =>
      match maxDate s.current_ratio with
      | some d => mkTable liqCols (liqRows stocks (yearOf d))
      | none => .error .yearNotFound

/-- Year resolution for the cash-conversion table: an explicit year is
used as given; otherwise it comes from the company's series index — the
degraded scalar `0` has no index (`AttributeError`, hence failure), as
does an empty index. -/
def cccResolve (year : Option ℕ) (s : CCCRes) : Option ℕ :=
  match year with
  | some y => some y
  | none =>
      match s.cash_conversion_cycle with
      | .scalarZero => none
      | .series ser => (maxDate ser).map yearOf

/-- Year lookup on a cash-conversion value: fails on the degraded scalar
(`0 .loc` is an `AttributeError`) or on a missing year. -/
def cccLookup (v : CCCVal) (y : ℕ) : Option EF :=
  match v with
  | .scalarZero => none
  | .series ser => lookupYear ser y

/-- Loop of `cash_conversion_cycle_df`: the `try` wraps the whole loop, so
the first failing company gets the single value `0` and the loop stops —
companies after it never reach the table. -/
def cccRows : List CCCRes → Option ℕ → List (String × List EF)
  | [], _ => []
  | s :: rest, year =>
      match cccResolve year s with
      | none => [(s.name, [EF.fin 0])]
      | some y =>
          match cccLookup s.cash_conversion_cycle y with
          | none => [(s.name, [EF.fin 0])]
          | some v => (s.name, [v]) :: cccRows rest (some y)

/-- `cash_conversion_cycle_df`: always produces a table. -/
def cash_conversion_cycle_df (stocks : List CCCRes) (year : Option ℕ) :
    ComparisonTable :=
  ⟨["cash_conversion_cycle"], cccRows stocks year⟩

/-- `equity_analysis_df`: one `PE` scalar per company, no year alignment. -/
def equity_analysis_df (stocks : List EqRes) : ComparisonTable :=
  ⟨["PE"], stocks.map (fun s => (s.name, [s.pe]))⟩

/-- An error escaping a per-family pipeline in `app`: either a line-item
lookup failure from the ratio engine or a year failure from alignment. -/
inductive PipelineErr : Type where
  | item : FinErr → PipelineErr
  | align : AlignErr → PipelineErr
  deriving DecidableEq

/-- Fail-fast left-to-right mapping, as `app`'s sequential per-stock loop
behaves for the non-degrading families. -/
def mapMExcept {α β ε : Type} (f : α → Except ε β) : List α → Except ε (List β)
  | [] => .ok []
  | a :: rest =>
      match f a with
      | .error e => .error e
      | .ok b =>
          match mapMExcept f rest with
          | .error e => .error e
          | .ok bs => .ok (b :: bs)

/-- The liquidity/solvency slice of `app`: compute the family for every
stock, then build its comparison table; any raised error escapes and no
table is produced. -/
def runLiquidityFamily (stocks : List Stock) (year : Option ℕ) :
    Except PipelineErr ComparisonTable :=
  match mapMExcept liquidity_and_solvency stocks with
  | .error e => .error (.item e)
  | .ok results =>
      match liquidity_and_solvency_df results year with
      | .error e => .error (.align e)
      | .ok t => .ok t

/-! ## Concrete companies used to instantiate the theorems -/

/-- A company with two complete newest-first periods of every line item
the four families use. -/
def fullStock : Stock where
  ticker := "FULL"
  financials :=
    [("Net Income", [(20211231, .fin 2), (20201231, .fin 1)]),
     ("Total Revenue", [(20211231, .fin 4), (20201231, .fin 2)]),
     ("Cost Of Revenue", [(20211231, .fin 2), (20201231, .fin 1)]),
     ("Ebit", [(20211231, .fin 3), (20201231, .fin 2)]),
     ("Interest Expense", [(20211231, .fin 1), (20201231, .fin 1)])]
  balance_sheet :=
    [("Total Assets", [(20211231, .fin 10), (20201231, .fin 10)]),
     ("Total Stockholder Equity", [(20211231, .fin 5), (20201231, .fin 5)]),
     ("Total Liab", [(20211231, .fin 5), (20201231, .fin 5)]),
     ("Total Current Assets", [(20211231, .fin 8), (20201231, .fin 6)]),
     ("Total Current Liabilities", [(20211231, .fin 4), (20201231, .fin 2)]),
     ("Cash", [(20211231, .fin 2), (20201231, .fin 1)]),
     ("Short Term Investments", [(20211231, .fin 1), (20201231, .fin 1)]),
     ("Inventory", [(20211231, .fin 2), (20201231, .fin 2)]),
     ("Net Receivables", [(20211231, .fin 2), (20201231, .fin 1)]),
     ("Accounts Payable", [(20211231, .fin 1), (20201231, .fin 1)])]
  forwardPE := .fin 10

/-- A company whose inventory is `0` in two consecutive periods while the
other cash-conversion line items are ordinary positive values. -/
def zeroInvStock : Stock where
  ticker := "ZRO"
  financials :=
    [("Cost Of Revenue", [(20211231, .fin 365), (20201231, .fin 365)]),
     ("Total Revenue", [(20211231, .fin 365), (20201231, .fin 365)])]
  balance_sheet :=
    [("Inventory", [(20211231, .fin 0), (20201231, .fin 0)]),
     ("Net Receivables", [(20211231, .fin 10), (20201231, .fin 10)]),
     ("Accounts Payable", [(20211231, .fin 73), (20201231, .fin 73)])]
  forwardPE := .fin 1

/-- A company whose statement tables are stored oldest-first. -/
def ascStock : Stock where
  ticker := "ASC"
  financials :=
    [("Net Income", [(20201231, .fin 1), (20211231, .fin 2)]),
     ("Total Revenue", [(20201231, .fin 2), (20211231, .fin 4)])]
  balance_sheet :=
    [("Total Assets", [(20201231, .fin 10), (20211231, .fin 10)]),
     ("Total Stockholder Equity", [(20201231, .fin 5), (20211231, .fin 5)])]
  forwardPE := .fin 1

/-- A company whose cash exceeds its recorded total current assets while
short-term investments and net receivables are zero. -/
def qStock : Stock where
  ticker := "QCK"
  financials :=
    [("Ebit", [(20211231, .fin 10)]),
     ("Interest Expense", [(20211231, .fin 5)])]
  balance_sheet :=
    [("Total Liab", [(20211231, .fin 50)]),
     ("Total Stockholder Equity", [(20211231, .fin 50)]),
     ("Total Current Assets", [(20211231, .fin 50)]),
     ("Total Current Liabilities", [(20211231, .fin 10)]),
     ("Cash", [(20211231, .fin 100)]),
     ("Short Term Investments", [(20211231, .fin 0)]),
     ("Net Receivables", [(20211231, .fin 0)])]
  forwardPE := .fin 1

/-- A company with empty statement tables (every lookup fails). -/
def emptyStock : Stock where
  ticker := "EMP"
  financials := []
  balance_sheet := []
  forwardPE := .fin 1

/-- A series is chronologically oldest-first: strictly increasing dates. -/
def chronOldestFirst (s : Series) : Prop :=
  List.Chain' (· < ·) (s.map Prod.fst)

/-- The DuPont record the engine computes for `fullStock`. -/
def fullBfbRes : BfbRes where
  name := "FULL"
  profitability := [(20201231, .fin (1/2)), (20211231, .fin (1/2))]
  asset_turn_over := [(20201231, .nan), (20211231, .fin (2/5))]
  financial_leverage := [(20201231, .nan), (20211231, .fin 2)]
  return_on_equity := [(20201231, .nan), (20211231, .fin (2/5))]

/-- The liquidity/solvency record the engine computes for `fullStock`. -/
def fullLiqRes : LiqRes where
  name := "FULL"
  current_ratio := [(20201231, .fin 3), (20211231, .fin 2)]
  quick_ratio := [(20201231, .fin (3/2)), (20211231, .fin (5/4))]
  liabilities_to_equity := [(20201231, .fin 1), (20211231, .fin 1)]
  interest_coverage_ratio := [(20201231, .fin 2), (20211231, .fin 3)]

/-- The DuPont record the engine computes for the oldest-first `ascStock`:
every series comes out newest-first. -/
def ascBfbRes : BfbRes where
  name := "ASC"
  profitability := [(20211231, .fin (1/2)), (20201231, .fin (1/2))]
  asset_turn_over := [(20211231, .nan), (20201231, .fin (1/5))]
  financial_leverage := [(20211231, .nan), (20201231, .fin 2)]
  return_on_equity := [(20211231, .nan), (20201231, .fin (1/5))]

/-- The liquidity/solvency record the engine computes for `qStock`. -/
def qRes : LiqRes where
  name := "QCK"
  current_ratio := [(20211231, .fin 5)]
  quick_ratio := [(20211231, .fin 10)]
  liabilities_to_equity := [(20211231, .fin 1)]
  interest_coverage_ratio := [(20211231, .fin 2)]

/-- The DuPont table for `[fullBfbRes]` at year 2021. -/
def fullBfbTable : ComparisonTable where
  cols := ["profitability", "asset_turn_over", "financial_leverage", "return_on_equity"]
  rows := [("FULL", [.fin (1/2), .fin (2/5), .fin 2, .fin (2/5)])]

/-- A cash-conversion result whose series has a 2021 period. -/
def okC : CCCRes := ⟨"A", .series [(20211231, .fin 5)]⟩

/-- A cash-conversion result whose series has no 2021 period. -/
def failC : CCCRes := ⟨"B", .series [(20191231, .fin 3)]⟩

/-- A cash-conversion result supplied after the failing company. -/
def postC : CCCRes := ⟨"C", .series [(20211231, .fin 7)]⟩

/-- A DuPont record whose series have no 2021 period. -/
def badBfb : BfbRes := ⟨"B", [(20191231, .fin 1)], [], [], []⟩

/-- A liquidity record whose series have no 2021 period. -/
def badLiq : LiqRes := ⟨"B", [(20191231, .fin 1)], [], [], []⟩


/-! ## Helper lemmas -/

/-- Entry `t` of a positional binary operation, when both operands have an
entry there: the first operand's date with the combined value. -/
theorem sbin_getElem (f : EF → EF → EF) :
    ∀ (a b : Series) (t : ℕ) (pa pb : ℕ × EF),
      a[t]? = some pa → b[t]? = some pb →
      (sbin f a b)[t]? = some (pa.1, f pa.2 pb.2) := by
  intro a
  induction a with
  | nil => intro b t pa pb ha; simp at ha
  | cons hd tl ih =>
      intro b t pa pb ha hb
      obtain ⟨d, x⟩ := hd
      cases b with
      | nil => simp at hb
      | cons hb' tlb =>
          obtain ⟨e, y⟩ := hb'
          cases t with
          | zero =>
              simp at ha hb
              subst ha; subst hb
              simp [sbin]
          | succ t =>
              simp at ha hb
              simpa [sbin] using ih tlb t pa pb ha hb

/-- Entry `t` of `scalarDiv c s`. -/
theorem scalarDiv_getElem (c : EF) (s : Series) (t : ℕ) (p : ℕ × EF)
    (h : s[t]? = some p) : (scalarDiv c s)[t]? = some (p.1, EF.div c p.2) := by
  simp [scalarDiv, h]

/-- `sbin` keeps the first operand's dates when the second is at least as
long. -/
theorem sbin_map_fst (f : EF → EF → EF) :
    ∀ (a b : Series), a.length ≤ b.length →
      (sbin f a b).map Prod.fst = a.map Prod.fst := by
  intro a
  induction a with
  | nil => intro b _; simp [sbin]
  | cons hd tl ih =>
      intro b hlen
      obtain ⟨d, x⟩ := hd
      cases b with
      | nil => simp at hlen
      | cons hb tlb =>
          obtain ⟨e, y⟩ := hb
          simp only [List.length_cons, Nat.add_le_add_iff_right] at hlen
          simp [sbin, ih tlb hlen]

/-- `rollGo` keeps dates. -/
theorem rollGo_map_fst (prev : EF) :
    ∀ s : Series, (rollGo prev s).map Prod.fst = s.map Prod.fst := by
  intro s
  induction s generalizing prev with
  | nil => simp [rollGo]
  | cons hd tl ih =>
      obtain ⟨d, v⟩ := hd
      simp [rollGo, ih]

/-- `rolling2mean` keeps dates. -/
theorem rolling2mean_map_fst (s : Series) :
    (rolling2mean s).map Prod.fst = s.map Prod.fst := by
  cases s with
  | nil => simp [rolling2mean]
  | cons hd tl =>
      obtain ⟨d, v⟩ := hd
      simp [rolling2mean, rollGo_map_fst]

/-- `rolling2mean` keeps length. -/
theorem rolling2mean_length (s : Series) :
    (rolling2mean s).length = s.length := by
  have h := congrArg List.length (rolling2mean_map_fst s)
  simpa using h

/-- `scalarDiv` keeps dates. -/
theorem scalarDiv_map_fst (c : EF) (s : Series) :
    (scalarDiv c s).map Prod.fst = s.map Prod.fst := by
  simp [scalarDiv]

/-- With all four line items present, `bang_for_buck` succeeds with the
literal DuPont record. -/
theorem bang_for_buck_eq (stock : Stock) (netIncome totalRevenue totalAssets equity : Series)
    (h1 : loc stock.financials "Net Income" = some netIncome)
    (h2 : loc stock.financials "Total Revenue" = some totalRevenue)
    (h3 : loc stock.balance_sheet "Total Assets" = some totalAssets)
    (h4 : loc stock.balance_sheet "Total Stockholder Equity" = some equity) :
    bang_for_buck stock =
      .ok ⟨stock.ticker,
        sdiv netIncome.reverse totalRevenue.reverse,
        sdiv totalRevenue.reverse (rolling2mean totalAssets.reverse),
        sdiv (rolling2mean totalAssets.reverse) (rolling2mean equity.reverse),
        smul (smul (sdiv netIncome.reverse totalRevenue.reverse)
            (sdiv totalRevenue.reverse (rolling2mean totalAssets.reverse)))
          (sdiv (rolling2mean totalAssets.reverse) (rolling2mean equity.reverse))⟩ := by
  simp [bang_for_buck, h1, h2, h3, h4]

/-- Success of `bang_for_buck` yields the four lookups and the record. -/
theorem bang_for_buck_ok_inv (stock : Stock) (r : BfbRes)
    (h : bang_for_buck stock = .ok r) :
    ∃ netIncome totalRevenue totalAssets equity,
      loc stock.financials "Net Income" = some netIncome ∧
      loc stock.financials "Total Revenue" = some totalRevenue ∧
      loc stock.balance_sheet "Total Assets" = some totalAssets ∧
      loc stock.balance_sheet "Total Stockholder Equity" = some equity ∧
      r = ⟨stock.ticker,
        sdiv netIncome.reverse totalRevenue.reverse,
        sdiv totalRevenue.reverse (rolling2mean totalAssets.reverse),
        sdiv (rolling2mean totalAssets.reverse) (rolling2mean equity.reverse),
        smul (smul (sdiv netIncome.reverse totalRevenue.reverse)
            (sdiv totalRevenue.reverse (rolling2mean totalAssets.reverse)))
          (sdiv (rolling2mean totalAssets.reverse) (rolling2mean equity.reverse))⟩ := by
  cases h1 : loc stock.financials "Net Income" with
  | none => simp [bang_for_buck, h1] at h
  | some netIncome =>
  cases h2 : loc stock.financials "Total Revenue" with
  | none => simp [bang_for_buck, h1, h2] at h
  | some totalRevenue =>
  cases h3 : loc stock.balance_sheet "Total Assets" with
  | none => simp [bang_for_buck, h1, h2, h3] at h
  | some totalAssets =>
  cases h4 : loc stock.balance_sheet "Total Stockholder Equity" with
  | none => simp [bang_for_buck, h1, h2, h3, h4] at h
  | some equity =>
      refine ⟨netIncome, totalRevenue, totalAssets, equity, rfl, rfl, rfl, rfl, ?_⟩
      rw [bang_for_buck_eq stock netIncome totalRevenue totalAssets equity h1 h2 h3 h4] at h
      exact (Except.ok.inj h).symm

/-- With all nine line items present, `liquidity_and_solvency` succeeds
with the literal record. -/
theorem liquidity_and_solvency_eq (stock : Stock)
    (totalLiab equity ebit interestExpense tca tcl cash sti netReceivables : Series)
    (h1 : loc stock.balance_sheet "Total Liab" = some totalLiab)
    (h2 : loc stock.balance_sheet "Total Stockholder Equity" = some equity)
    (h3 : loc stock.financials "Ebit" = some ebit)
    (h4 : loc stock.financials "Interest Expense" = some interestExpense)
    (h5 : loc stock.balance_sheet "Total Current Assets" = some tca)
    (h6 : loc stock.balance_sheet "Total Current Liabilities" = some tcl)
    (h7 : loc stock.balance_sheet "Cash" = some cash)
    (h8 : loc stock.balance_sheet "Short Term Investments" = some sti)
    (h9 : loc stock.balance_sheet "Net Receivables" = some netReceivables) :
    liquidity_and_solvency stock =
      .ok ⟨stock.ticker,
        sdiv tca.reverse tcl.reverse,
        sdiv (sadd (sadd cash.reverse sti.reverse) netReceivables.reverse) tcl.reverse,
        sdiv totalLiab.reverse equity.reverse,
        sdiv ebit.reverse interestExpense.reverse⟩ := by
  simp [liquidity_and_solvency, h1, h2, h3, h4, h5, h6, h7, h8, h9]

/-- With all five line items present, the cash-conversion core succeeds
with the literal series. -/
theorem cash_conversion_cycle_core_eq (stock : Stock)
    (cor inv tr nr ap : Series)
    (h1 : loc stock.financials "Cost Of Revenue" = some cor)
    (h2 : loc stock.balance_sheet "Inventory" = some inv)
    (h3 : loc stock.financials "Total Revenue" = some tr)
    (h4 : loc stock.balance_sheet "Net Receivables" = some nr)
    (h5 : loc stock.balance_sheet "Accounts Payable" = some ap) :
    cash_conversion_cycle_core stock =
      .ok (ssub
        (sadd (inventory_turn_over_days cor inv) (accounts_receivable_turn_over_days tr nr))
        (accounts_payable_turn_over_days cor ap)) := by
  simp [cash_conversion_cycle_core, h1, h2, h3, h4, h5]

/-- Success of the cash-conversion core requires all five lookups. -/
theorem cash_conversion_cycle_core_ok_inv (stock : Stock) (ser : Series)
    (h : cash_conversion_cycle_core stock = .ok ser) :
    (∃ s, loc stock.financials "Cost Of Revenue" = some s) ∧
    (∃ s, loc stock.balance_sheet "Inventory" = some s) ∧
    (∃ s, loc stock.financials "Total Revenue" = some s) ∧
    (∃ s, loc stock.balance_sheet "Net Receivables" = some s) ∧
    (∃ s, loc stock.balance_sheet "Accounts Payable" = some s) := by
  cases h1 : loc stock.financials "Cost Of Revenue" with
  | none => simp [cash_conversion_cycle_core, h1] at h
  | some cor =>
  cases h2 : loc stock.balance_sheet "Inventory" with
  | none => simp [cash_conversion_cycle_core, h1, h2] at h
  | some inv =>
  cases h3 : loc stock.financials "Total Revenue" with
  | none => simp [cash_conversion_cycle_core, h1, h2, h3] at h
  | some tr =>
  cases h4 : loc stock.balance_sheet "Net Receivables" with
  | none => simp [cash_conversion_cycle_core, h1, h2, h3, h4] at h
  | some nr =>
  cases h5 : loc stock.balance_sheet "Accounts Payable" with
  | none => simp [cash_conversion_cycle_core, h1, h2, h3, h4, h5] at h
  | some ap => exact ⟨⟨cor, rfl⟩, ⟨inv, rfl⟩, ⟨tr, rfl⟩, ⟨nr, rfl⟩, ⟨ap, rfl⟩⟩

/-- Every value of `AlignErr` is `yearNotFound`. -/
theorem alignErr_eq (e : AlignErr) : e = .yearNotFound := by
  cases e; rfl

/-- Successful DuPont rows carry the supplied company names in order. -/
theorem bfbRows_ok_names (y : ℕ) :
    ∀ (stocks : List BfbRes) (rows : List (String × List EF)),
      bfbRows stocks y = .ok rows → rows.map Prod.fst = stocks.map BfbRes.name := by
  intro stocks
  induction stocks with
  | nil => intro rows h; simp [bfbRows] at h; simp [← h]
  | cons s rest ih =>
      intro rows h
      cases k1 : lookupYear s.profitability y with
      | none => simp [bfbRows, k1] at h
      | some v1 =>
      cases k2 : lookupYear s.asset_turn_over y with
      | none => simp [bfbRows, k1, k2] at h
      | some v2 =>
      cases k3 : lookupYear s.financial_leverage y with
      | none => simp [bfbRows, k1, k2, k3] at h
      | some v3 =>
      cases k4 : lookupYear s.return_on_equity y with
      | none => simp [bfbRows, k1, k2, k3, k4] at h
      | some v4 =>
          cases ktail : bfbRows rest y with
          | error e => simp [bfbRows, k1, k2, k3, k4, ktail] at h
          | ok tail =>
              simp [bfbRows, k1, k2, k3, k4, ktail] at h
              simp [← h, ih tail ktail]

/-- A missing year for any company makes the DuPont rows fail. -/
theorem bfbRows_error_of_missing (y : ℕ) :
    ∀ (stocks : List BfbRes) (s : BfbRes), s ∈ stocks →
      lookupYear s.profitability y = none →
      bfbRows stocks y = .error .yearNotFound := by
  intro stocks
  induction stocks with
  | nil => intro s hs; simp at hs
  | cons hd rest ih =>
      intro s hs hmiss
      rcases List.mem_cons.mp hs with heq | hmem
      · subst heq
        simp [bfbRows, hmiss]
      · cases k1 : lookupYear hd.profitability y with
        | none => simp [bfbRows, k1]
        | some v1 =>
        cases k2 : lookupYear hd.asset_turn_over y with
        | none => simp [bfbRows, k1, k2]
        | some v2 =>
        cases k3 : lookupYear hd.financial_leverage y with
        | none => simp [bfbRows, k1, k2, k3]
        | some v3 =>
        cases k4 : lookupYear hd.return_on_equity y with
        | none => simp [bfbRows, k1, k2, k3, k4]
        | some v4 => simp [bfbRows, k1, k2, k3, k4, ih s hmem hmiss]

/-- Successful liquidity rows carry the supplied company names in order. -/
theorem liqRows_ok_names (y : ℕ) :
    ∀ (stocks : List LiqRes) (rows : List (String × List EF)),
      liqRows stocks y = .ok rows → rows.map Prod.fst = stocks.map LiqRes.name := by
  intro stocks
  induction stocks with
  | nil => intro rows h; simp [liqRows] at h; simp [← h]
  | cons s rest ih =>
      intro rows h
      cases k1 : lookupYear s.current_ratio y with
      | none => simp [liqRows, k1] at h
      | some v1 =>
      cases k2 : lookupYear s.quick_ratio y with
      | none => simp [liqRows, k1, k2] at h
      | some v2 =>
      cases k3 : lookupYear s.liabilities_to_equity y with
      | none => simp [liqRows, k1, k2, k3] at h
      | some v3 =>
      cases k4 : lookupYear s.interest_coverage_ratio y with
      | none => simp [liqRows, k1, k2, k3, k4] at h
      | some v4 =>
          cases ktail : liqRows rest y with
          | error e => simp [liqRows, k1, k2, k3, k4, ktail] at h
          | ok tail =>
              simp [liqRows, k1, k2, k3, k4, ktail] at h
              simp [← h, ih tail ktail]

/-- A missing year for any company makes the liquidity rows fail. -/
theorem liqRows_error_of_missing (y : ℕ) :
    ∀ (stocks : List LiqRes) (s : LiqRes), s ∈ stocks →
      lookupYear s.current_ratio y = none →
      liqRows stocks y = .error .yearNotFound := by
  intro stocks
  induction stocks with
  | nil => intro s hs; simp at hs
  | cons hd rest ih =>
      intro s hs hmiss
      rcases List.mem_cons.mp hs with heq | hmem
      · subst heq
        simp [liqRows, hmiss]
      · cases k1 : lookupYear hd.current_ratio y with
        | none => simp [liqRows, k1]
        | some v1 =>
        cases k2 : lookupYear hd.quick_ratio y with
        | none => simp [liqRows, k1, k2]
        | some v2 =>
        cases k3 : lookupYear hd.liabilities_to_equity y with
        | none => simp [liqRows, k1, k2, k3]
        | some v3 =>
        cases k4 : lookupYear hd.interest_coverage_ratio y with
        | none => simp [liqRows, k1, k2, k3, k4]
        | some v4 => simp [liqRows, k1, k2, k3, k4, ih s hmem hmiss]

/-- Cash-conversion rows for a list whose first failure is the company
`f`: every earlier company keeps its value, `f` gets the single zero, and
nothing after `f` is emitted. -/
theorem cccRows_prefix_fail (y : ℕ) (w : CCCRes → EF) :
    ∀ (pre : List CCCRes) (f : CCCRes) (post : List CCCRes),
      (∀ s ∈ pre, cccLookup s.cash_conversion_cycle y = some (w s)) →
      cccLookup f.cash_conversion_cycle y = none →
      cccRows (pre ++ f :: post) (some y) =
        pre.map (fun s => (s.name, [w s])) ++ [(f.name, [EF.fin 0])] := by
  intro pre
  induction pre with
  | nil =>
      intro f post _ hf
      simp [cccRows, cccResolve, hf]
  | cons s rest ih =>
      intro f post hpre hf
      have hs := hpre s (List.mem_cons_self s rest)
      have hrest : ∀ q ∈ rest, cccLookup q.cash_conversion_cycle y = some (w q) :=
        fun q hq => hpre q (List.mem_cons_of_mem s hq)
      simp [cccRows, cccResolve, hs, ih f post hrest hf]

/-- Fully successful cash-conversion rows (explicit year) carry the
supplied company names in order. -/
theorem cccRows_ok_names (y : ℕ) :
    ∀ (stocks : List CCCRes),
      (∀ s ∈ stocks, cccLookup s.cash_conversion_cycle y ≠ none) →
      (cccRows stocks (some y)).map Prod.fst = stocks.map CCCRes.name := by
  intro stocks
  induction stocks with
  | nil => simp [cccRows]
  | cons s rest ih =>
      intro hok
      cases k : cccLookup s.cash_conversion_cycle y with
      | none => exact absurd k (hok s (List.mem_cons_self s rest))
      | some v =>
          have hrest : ∀ q ∈ rest, cccLookup q.cash_conversion_cycle y ≠ none :=
            fun q hq => hok q (List.mem_cons_of_mem s hq)
          simp [cccRows, cccResolve, k, ih hrest]

/-- A member on which `f` fails makes `mapMExcept` fail. -/
theorem mapMExcept_error {α β ε : Type} (f : α → Except ε β) :
    ∀ (l : List α) (x : α), x ∈ l → (∀ b, f x ≠ .ok b) →
      ∃ e, mapMExcept f l = .error e := by
  intro l
  induction l with
  | nil => intro x hx; simp at hx
  | cons a rest ih =>
      intro x hx hfail
      rcases List.mem_cons.mp hx with heq | hmem
      · subst heq
        cases hfa : f x with
        | error e => exact ⟨e, by simp [mapMExcept, hfa]⟩
        | ok b => exact absurd hfa (hfail b)
      · cases hfa : f a with
        | error e => exact ⟨e, by simp [mapMExcept, hfa]⟩
        | ok b =>
            obtain ⟨e, he⟩ := ih x hmem hfail
            exact ⟨e, by simp [mapMExcept, hfa, he]⟩

/-- Inversion of `mkTable` on success. -/
theorem mkTable_ok_inv (cols : List String)
    (r : Except AlignErr (List (String × List EF))) (t : ComparisonTable)
    (h : mkTable cols r = .ok t) : ∃ rows, r = .ok rows ∧ t = ⟨cols, rows⟩ := by
  cases r with
  | ok rows =>
      refine ⟨rows, rfl, ?_⟩
      simpa [mkTable] using h.symm
  | error e => simp [mkTable] at h

/-- A missing "Ebit" row makes `liquidity_and_solvency` raise a
line-item-missing error (possibly for an item looked up earlier). -/
theorem liquidity_err_of_missing_ebit (stock : Stock)
    (hebit : loc stock.financials "Ebit" = none) :
    ∃ item, liquidity_and_solvency stock = .error (.lineItemMissing item) := by
  cases h1 : loc stock.balance_sheet "Total Liab" with
  | none => exact ⟨"Total Liab", by simp [liquidity_and_solvency, h1]⟩
  | some totalLiab =>
      cases h2 : loc stock.balance_sheet "Total Stockholder Equity" with
      | none =>
          exact ⟨"Total Stockholder Equity", by simp [liquidity_and_solvency, h1, h2]⟩
      | some equity => exact ⟨"Ebit", by simp [liquidity_and_solvency, h1, h2, hebit]⟩

/-- A series whose dates are the reverse of a strictly descending list is
chronologically oldest-first. -/
theorem chron_of_rev (s : Series) (ds : List ℕ)
    (es : s.map Prod.fst = ds.reverse) (hdesc : List.Chain' (· > ·) ds) :
    chronOldestFirst s := by
  unfold chronOldestFirst
  rw [es, List.chain'_reverse]
  exact hdesc

/-- The dates of a positional binary operation over two series with the
same dates. -/
theorem sbin_fst_eq (f : EF → EF → EF) (x y : Series) (l : List ℕ)
    (ex : x.map Prod.fst = l) (ey : y.map Prod.fst = l) :
    (sbin f x y).map Prod.fst = l := by
  have hlen : x.length ≤ y.length := by
    have hx := congrArg List.length ex
    have hy := congrArg List.length ey
    simp only [List.length_map] at hx hy
    omega
  rw [sbin_map_fst f x y hlen, ex]

/-! ## Evaluation lemmas for the concrete companies -/

/-- The engine's DuPont output on `fullStock`. -/
theorem bang_for_buck_fullStock : bang_for_buck fullStock = .ok fullBfbRes := by
  rw [bang_for_buck_eq fullStock
      [(20211231, EF.fin 2), (20201231, EF.fin 1)]
      [(20211231, EF.fin 4), (20201231, EF.fin 2)]
      [(20211231, EF.fin 10), (20201231, EF.fin 10)]
      [(20211231, EF.fin 5), (20201231, EF.fin 5)]
      (by simp +decide [fullStock, loc, List.find?])
      (by simp +decide [fullStock, loc, List.find?])
      (by simp +decide [fullStock, loc, List.find?])
      (by simp +decide [fullStock, loc, List.find?])]
  norm_num [fullStock, fullBfbRes, sdiv, smul, sbin, rolling2mean, rollGo,
    EF.div, EF.mul, EF.add]

/-- The engine's liquidity/solvency output on `fullStock`. -/
theorem liquidity_fullStock : liquidity_and_solvency fullStock = .ok fullLiqRes := by
  rw [liquidity_and_solvency_eq fullStock
      [(20211231, EF.fin 5), (20201231, EF.fin 5)]
      [(20211231, EF.fin 5), (20201231, EF.fin 5)]
      [(20211231, EF.fin 3), (20201231, EF.fin 2)]
      [(20211231, EF.fin 1), (20201231, EF.fin 1)]
      [(20211231, EF.fin 8), (20201231, EF.fin 6)]
      [(20211231, EF.fin 4), (20201231, EF.fin 2)]
      [(20211231, EF.fin 2), (20201231, EF.fin 1)]
      [(20211231, EF.fin 1), (20201231, EF.fin 1)]
      [(20211231, EF.fin 2), (20201231, EF.fin 1)]
      (by simp +decide [fullStock, loc, List.find?])
      (by simp +decide [fullStock, loc, List.find?])
      (by simp +decide [fullStock, loc, List.find?])
      (by simp +decide [fullStock, loc, List.find?])
      (by simp +decide [fullStock, loc, List.find?])
      (by simp +decide [fullStock, loc, List.find?])
      (by simp +decide [fullStock, loc, List.find?])
      (by simp +decide [fullStock, loc, List.find?])
      (by simp +decide [fullStock, loc, List.find?])]
  norm_num [fullStock, fullLiqRes, sdiv, sadd, sbin, EF.div, EF.add]

/-- The engine's DuPont output on the oldest-first `ascStock`. -/
theorem bang_for_buck_ascStock : bang_for_buck ascStock = .ok ascBfbRes := by
  rw [bang_for_buck_eq ascStock
      [(20201231, EF.fin 1), (20211231, EF.fin 2)]
      [(20201231, EF.fin 2), (20211231, EF.fin 4)]
      [(20201231, EF.fin 10), (20211231, EF.fin 10)]
      [(20201231, EF.fin 5), (20211231, EF.fin 5)]
      (by simp +decide [ascStock, loc, List.find?])
      (by simp +decide [ascStock, loc, List.find?])
      (by simp +decide [ascStock, loc, List.find?])
      (by simp +decide [ascStock, loc, List.find?])]
  norm_num [ascStock, ascBfbRes, sdiv, smul, sbin, rolling2mean, rollGo,
    EF.div, EF.mul, EF.add]

/-- The engine's liquidity/solvency output on `qStock`. -/
theorem liquidity_qStock : liquidity_and_solvency qStock = .ok qRes := by
  rw [liquidity_and_solvency_eq qStock
      [(20211231, EF.fin 50)] [(20211231, EF.fin 50)]
      [(20211231, EF.fin 10)] [(20211231, EF.fin 5)]
      [(20211231, EF.fin 50)] [(20211231, EF.fin 10)]
      [(20211231, EF.fin 100)] [(20211231, EF.fin 0)] [(20211231, EF.fin 0)]
      (by simp +decide [qStock, loc, List.find?])
      (by simp +decide [qStock, loc, List.find?])
      (by simp +decide [qStock, loc, List.find?])
      (by simp +decide [qStock, loc, List.find?])
      (by simp +decide [qStock, loc, List.find?])
      (by simp +decide [qStock, loc, List.find?])
      (by simp +decide [qStock, loc, List.find?])
      (by simp +decide [qStock, loc, List.find?])
      (by simp +decide [qStock, loc, List.find?])]
  norm_num [qStock, qRes, sdiv, sadd, sbin, EF.div, EF.add]

/-- The engine's cash-conversion output on `zeroInvStock`. -/
theorem ccc_zeroInvStock :
    cash_conversion_cycle zeroInvStock =
      ⟨"ZRO", .series [(20201231, EF.nan), (20211231, EF.fin (-63))]⟩ := by
  have hcore : cash_conversion_cycle_core zeroInvStock =
      .ok [(20201231, EF.nan), (20211231, EF.fin (-63))] := by
    rw [cash_conversion_cycle_core_eq zeroInvStock
        [(20211231, EF.fin 365), (20201231, EF.fin 365)]
        [(20211231, EF.fin 0), (20201231, EF.fin 0)]
        [(20211231, EF.fin 365), (20201231, EF.fin 365)]
        [(20211231, EF.fin 10), (20201231, EF.fin 10)]
        [(20211231, EF.fin 73), (20201231, EF.fin 73)]
        (by simp +decide [zeroInvStock, loc, List.find?])
        (by simp +decide [zeroInvStock, loc, List.find?])
        (by simp +decide [zeroInvStock, loc, List.find?])
        (by simp +decide [zeroInvStock, loc, List.find?])
        (by simp +decide [zeroInvStock, loc, List.find?])]
    norm_num [inventory_turn_over_days, accounts_receivable_turn_over_days,
      accounts_payable_turn_over_days, scalarDiv, sdiv, sadd, ssub, sbin,
      rolling2mean, rollGo, EF.div, EF.add, EF.sub, EF.neg]
  unfold cash_conversion_cycle
  rw [hcore]
  rfl

/-! ## Claim theorems -/

/-- Claim C1: for every company on which the DuPont family succeeds and
every period where profitability, asset turnover and financial leverage
all have entries, the `return_on_equity` series carries exactly their
pointwise product at that period. -/
theorem dupont_identity_pointwise (stock : Stock) (r : BfbRes) (t : ℕ)
    (p a f : ℕ × EF)
    (h : bang_for_buck stock = .ok r)
    (hp : r.profitability[t]? = some p)
    (ha : r.asset_turn_over[t]? = some a)
    (hf : r.financial_leverage[t]? = some f) :
    r.return_on_equity[t]? = some (p.1, EF.mul (EF.mul p.2 a.2) f.2) := by
  obtain ⟨ni, tr, ta, equity, h1, h2, h3, h4, hr⟩ := bang_for_buck_ok_inv stock r h
  subst hr
  simp only [smul] at *
  exact sbin_getElem EF.mul _ _ t _ f (sbin_getElem EF.mul _ _ t p a hp ha) hf

/-- Witness for C1 at `fullStock`, period index 1. -/
theorem dupont_identity_pointwise_witness :
    fullBfbRes.return_on_equity[1]? =
      some ((20211231 : ℕ),
        EF.mul (EF.mul (EF.fin (1/2)) (EF.fin (2/5))) (EF.fin 2)) :=
  dupont_identity_pointwise fullStock fullBfbRes 1
    (20211231, EF.fin (1/2)) (20211231, EF.fin (2/5)) (20211231, EF.fin 2)
    bang_for_buck_fullStock
    (by norm_num [fullBfbRes]) (by norm_num [fullBfbRes]) (by norm_num [fullBfbRes])

/-- Claim C2 (counterexample): `zeroInvStock` has inventory `0` in two
consecutive periods, so the inventory-days denominator averages to zero —
yet `cash_conversion_cycle` does not return the scalar `0`: nothing is
raised, the division produces an infinity, `365 / inf` is `0` for the
inventory term only, and the company's series value is `-63`. -/
theorem zero_average_not_scalar_zero :
    loc zeroInvStock.balance_sheet "Inventory" =
      some [(20211231, EF.fin 0), (20201231, EF.fin 0)] ∧
    cash_conversion_cycle zeroInvStock =
      ⟨"ZRO", .series [(20201231, EF.nan), (20211231, EF.fin (-63))]⟩ ∧
    CCCVal.series [(20201231, EF.nan), (20211231, EF.fin (-63))] ≠ CCCVal.scalarZero :=
  ⟨by simp +decide [zeroInvStock, loc, List.find?], ccc_zeroInvStock, by simp⟩

/-- Claim C2 (amended): a division by a zero two-period average during the
cash-conversion computation raises nothing and does not trigger the
scalar-zero fallback: the days term whose denominator average is zero is
exactly `0` at that period whenever its numerator is positive, and with
all line items present the company's result is always a full series (the
scalar `0` arises only from raised errors such as missing line items). -/
theorem zero_average_term_zero_no_degradation :
    (∀ (cor inv : Series) (t d d' : ℕ) (c : ℚ),
        cor.reverse[t]? = some (d, EF.fin c) → 0 < c →
        (rolling2mean inv.reverse)[t]? = some (d', EF.fin 0) →
        (inventory_turn_over_days cor inv)[t]? = some (d, EF.fin 0)) ∧
    (∀ (stock : Stock) (cor inv tr nr ap : Series),
        loc stock.financials "Cost Of Revenue" = some cor →
        loc stock.balance_sheet "Inventory" = some inv →
        loc stock.financials "Total Revenue" = some tr →
        loc stock.balance_sheet "Net Receivables" = some nr →
        loc stock.balance_sheet "Accounts Payable" = some ap →
        ∃ ser, cash_conversion_cycle stock = ⟨stock.ticker, CCCVal.series ser⟩) := by
  constructor
  · intro cor inv t d d' c hc hcpos hroll
    have hdiv : (sdiv cor.reverse (rolling2mean inv.reverse))[t]? =
        some (d, EF.div (EF.fin c) (EF.fin 0)) :=
      sbin_getElem EF.div _ _ t (d, EF.fin c) (d', EF.fin 0) hc hroll
    have hpinf : EF.div (EF.fin c) (EF.fin 0) = EF.pinf := by
      simp [EF.div, hcpos]
    rw [hpinf] at hdiv
    have hout := scalarDiv_getElem (EF.fin 365) _ t (d, EF.pinf) hdiv
    simpa [inventory_turn_over_days, EF.div] using hout
  · intro stock cor inv tr nr ap h1 h2 h3 h4 h5
    refine ⟨ssub
      (sadd (inventory_turn_over_days cor inv) (accounts_receivable_turn_over_days tr nr))
      (accounts_payable_turn_over_days cor ap), ?_⟩
    simp [cash_conversion_cycle,
      cash_conversion_cycle_core_eq stock cor inv tr nr ap h1 h2 h3 h4 h5]

/-- Witness for the amended C2 at `zeroInvStock`, period index 1. -/
theorem zero_average_term_zero_no_degradation_witness :
    (inventory_turn_over_days
        [(20211231, EF.fin 365), (20201231, EF.fin 365)]
        [(20211231, EF.fin 0), (20201231, EF.fin 0)])[1]? =
      some ((20211231 : ℕ), EF.fin 0) ∧
    ∃ ser, cash_conversion_cycle zeroInvStock = ⟨zeroInvStock.ticker, CCCVal.series ser⟩ :=
  ⟨zero_average_term_zero_no_degradation.1
      [(20211231, EF.fin 365), (20201231, EF.fin 365)]
      [(20211231, EF.fin 0), (20201231, EF.fin 0)]
      1 20211231 20211231 365 (by norm_num) (by norm_num)
      (by norm_num [rolling2mean, rollGo, EF.add, EF.div]),
   zero_average_term_zero_no_degradation.2 zeroInvStock
      [(20211231, EF.fin 365), (20201231, EF.fin 365)]
      [(20211231, EF.fin 0), (20201231, EF.fin 0)]
      [(20211231, EF.fin 365), (20201231, EF.fin 365)]
      [(20211231, EF.fin 10), (20201231, EF.fin 10)]
      [(20211231, EF.fin 73), (20201231, EF.fin 73)]
      (by simp +decide [zeroInvStock, loc, List.find?])
      (by simp +decide [zeroInvStock, loc, List.find?])
      (by simp +decide [zeroInvStock, loc, List.find?])
      (by simp +decide [zeroInvStock, loc, List.find?])
      (by simp +decide [zeroInvStock, loc, List.find?])⟩

/-- Claim C3: if any cash-conversion line item is absent (the only raise
site in the computation, numpy arithmetic being raise-free), the company's
whole family result degrades to the scalar `0` instead of propagating. -/
theorem ccc_missing_item_degrades_to_zero (stock : Stock)
    (h : loc stock.financials "Cost Of Revenue" = none ∨
        loc stock.balance_sheet "Inventory" = none ∨
        loc stock.financials "Total Revenue" = none ∨
        loc stock.balance_sheet "Net Receivables" = none ∨
        loc stock.balance_sheet "Accounts Payable" = none) :
    cash_conversion_cycle stock = ⟨stock.ticker, CCCVal.scalarZero⟩ := by
  cases hcore : cash_conversion_cycle_core stock with
  | error e => simp [cash_conversion_cycle, hcore]
  | ok ser =>
      obtain ⟨⟨s1, k1⟩, ⟨s2, k2⟩, ⟨s3, k3⟩, ⟨s4, k4⟩, ⟨s5, k5⟩⟩ :=
        cash_conversion_cycle_core_ok_inv stock ser hcore
      rcases h with h | h | h | h | h <;> simp_all

/-- Witness for C3 at `emptyStock`. -/
theorem ccc_missing_item_degrades_to_zero_witness :
    cash_conversion_cycle emptyStock = ⟨emptyStock.ticker, CCCVal.scalarZero⟩ :=
  ccc_missing_item_degrades_to_zero emptyStock (Or.inl (by decide))

/-- Claim C4: a company whose income statement lacks "Ebit" makes the
liquidity/solvency family raise a `LineItemMissing` error which escapes
the per-family pipeline unrecovered, so no comparison table is produced in
that invocation. -/
theorem liquidity_missing_ebit_raises (stocks : List Stock) (stock : Stock)
    (year : Option ℕ) (hmem : stock ∈ stocks)
    (hebit : loc stock.financials "Ebit" = none) :
    ∃ item, runLiquidityFamily stocks year = .error (.item (.lineItemMissing item)) := by
  obtain ⟨item0, herr⟩ := liquidity_err_of_missing_ebit stock hebit
  have hfail : ∀ b, liquidity_and_solvency stock ≠ .ok b := by
    intro b hb
    rw [herr] at hb
    cases hb
  obtain ⟨e, he⟩ := mapMExcept_error liquidity_and_solvency stocks stock hmem hfail
  cases e with
  | lineItemMissing item => exact ⟨item, by simp [runLiquidityFamily, he]⟩

/-- Witness for C4 at `[emptyStock]`. -/
theorem liquidity_missing_ebit_raises_witness :
    ∃ item, runLiquidityFamily [emptyStock] none =
      .error (.item (.lineItemMissing item)) :=
  liquidity_missing_ebit_raises [emptyStock] emptyStock none
    (List.mem_singleton.mpr rfl) (by decide)

/-- Claim C5: with no target year, the DuPont and liquidity aligners
resolve the year once, from the first company's series as the calendar
year of its maximum date, and then behave exactly as if that year had been
supplied explicitly for every company of the invocation. -/
theorem year_resolved_once_from_first_company
    (s : BfbRes) (rest : List BfbRes) (d : ℕ)
    (hmax : maxDate s.profitability = some d)
    (s2 : LiqRes) (rest2 : List LiqRes) (d2 : ℕ)
    (hmax2 : maxDate s2.current_ratio = some d2) :
    bang_for_buck_df (s :: rest) none = bang_for_buck_df (s :: rest) (some (yearOf d)) ∧
    liquidity_and_solvency_df (s2 :: rest2) none =
      liquidity_and_solvency_df (s2 :: rest2) (some (yearOf d2)) := by
  constructor
  · simp [bang_for_buck_df, hmax]
  · simp [liquidity_and_solvency_df, hmax2]

/-- Witness for C5 at `fullBfbRes` / `fullLiqRes` (maximum date
2021-12-31). -/
theorem year_resolved_once_from_first_company_witness :
    bang_for_buck_df [fullBfbRes] none =
      bang_for_buck_df [fullBfbRes] (some (yearOf 20211231)) ∧
    liquidity_and_solvency_df [fullLiqRes] none =
      liquidity_and_solvency_df [fullLiqRes] (some (yearOf 20211231)) :=
  year_resolved_once_from_first_company fullBfbRes [] 20211231
    (by norm_num [fullBfbRes, maxDate])
    fullLiqRes [] 20211231 (by norm_num [fullLiqRes, maxDate])

/-- Claim C6: missing-year policy per family — in the cash-conversion
table the company whose year lookup fails degrades to the single value `0`
and a table is still produced, while the DuPont and liquidity/solvency
tables raise a year error instead of substituting zero. -/
theorem missing_year_policy_per_family :
    (∀ (pre : List CCCRes) (f : CCCRes) (post : List CCCRes) (y : ℕ) (w : CCCRes → EF),
        (∀ s ∈ pre, cccLookup s.cash_conversion_cycle y = some (w s)) →
        cccLookup f.cash_conversion_cycle y = none →
        cash_conversion_cycle_df (pre ++ f :: post) (some y) =
          ⟨["cash_conversion_cycle"],
            pre.map (fun s => (s.name, [w s])) ++ [(f.name, [EF.fin 0])]⟩) ∧
    (∀ (stocks : List BfbRes) (s : BfbRes) (y : ℕ), s ∈ stocks →
        lookupYear s.profitability y = none →
        bang_for_buck_df stocks (some y) = .error .yearNotFound) ∧
    (∀ (stocks : List LiqRes) (s : LiqRes) (y : ℕ), s ∈ stocks →
        lookupYear s.current_ratio y = none →
        liquidity_and_solvency_df stocks (some y) = .error .yearNotFound) := by
  refine ⟨?_, ?_, ?_⟩
  · intro pre f post y w hpre hf
    simp [cash_conversion_cycle_df, cccRows_prefix_fail y w pre f post hpre hf]
  · intro stocks s y hs hmiss
    simp [bang_for_buck_df, mkTable, bfbRows_error_of_missing y stocks s hs hmiss]
  · intro stocks s y hs hmiss
    simp [liquidity_and_solvency_df, mkTable, liqRows_error_of_missing y stocks s hs hmiss]

/-- Witness for C6: year 2021, `failC` has only a 2019 period. -/
theorem missing_year_policy_per_family_witness :
    cash_conversion_cycle_df [okC, failC, postC] (some 2021) =
      ⟨["cash_conversion_cycle"],
        [okC].map (fun s => (s.name, [(fun _ => EF.fin 5) s])) ++
          [(failC.name, [EF.fin 0])]⟩ ∧
    bang_for_buck_df [badBfb] (some 2021) = .error .yearNotFound ∧
    liquidity_and_solvency_df [badLiq] (some 2021) = .error .yearNotFound :=
  ⟨missing_year_policy_per_family.1 [okC] failC [postC] 2021 (fun _ => EF.fin 5)
      (by intro s hs; simp only [List.mem_singleton] at hs; subst hs; norm_num
            [okC, cccLookup, lookupYear, yearOf])
      (by norm_num [failC, cccLookup, lookupYear, yearOf]),
   missing_year_policy_per_family.2.1 [badBfb] badBfb 2021 (List.mem_singleton.mpr rfl)
      (by norm_num [badBfb, lookupYear, yearOf]),
   missing_year_policy_per_family.2.2 [badLiq] badLiq 2021 (List.mem_singleton.mpr rfl)
      (by norm_num [badLiq, lookupYear, yearOf])⟩

/-- Claim C7: every comparison table lists its rows in the order the
companies were supplied and carries the fixed per-family column order. -/
theorem table_row_and_column_order :
    (∀ (stocks : List BfbRes) (year : Option ℕ) (t : ComparisonTable),
        bang_for_buck_df stocks year = .ok t →
        t.cols = ["profitability", "asset_turn_over", "financial_leverage",
          "return_on_equity"] ∧
        t.rows.map Prod.fst = stocks.map BfbRes.name) ∧
    (∀ (stocks : List LiqRes) (year : Option ℕ) (t : ComparisonTable),
        liquidity_and_solvency_df stocks year = .ok t →
        t.cols = ["current_ratio", "quick_ratio", "liabilities_to_equity",
          "interest_coverage_ratio"] ∧
        t.rows.map Prod.fst = stocks.map LiqRes.name) ∧
    (∀ (stocks : List CCCRes) (year : Option ℕ),
        (cash_conversion_cycle_df stocks year).cols = ["cash_conversion_cycle"]) ∧
    (∀ (stocks : List CCCRes) (y : ℕ),
        (∀ s ∈ stocks, cccLookup s.cash_conversion_cycle y ≠ none) →
        (cash_conversion_cycle_df stocks (some y)).rows.map Prod.fst =
          stocks.map CCCRes.name) ∧
    (∀ (stocks : List EqRes),
        (equity_analysis_df stocks).cols = ["PE"] ∧
        (equity_analysis_df stocks).rows.map Prod.fst = stocks.map EqRes.name) := by
  refine ⟨?_, ?_, ?_, ?_, ?_⟩
  · intro stocks year t h
    cases year with
    | some y =>
        rw [show bang_for_buck_df stocks (some y) = mkTable bfbCols (bfbRows stocks y)
            from rfl] at h
        obtain ⟨rows, hr, ht⟩ := mkTable_ok_inv _ _ _ h
        subst ht
        exact ⟨rfl, bfbRows_ok_names y stocks rows hr⟩
    | none =>
        cases stocks with
        | nil =>
            simp [bang_for_buck_df] at h
            simp [← h, bfbCols]
        | cons s rest =>
            cases hmax : maxDate s.profitability with
            | none => simp [bang_for_buck_df, hmax] at h
            | some d =>
                simp only [bang_for_buck_df, hmax] at h
                obtain ⟨rows, hr, ht⟩ := mkTable_ok_inv _ _ _ h
                subst ht
                exact ⟨rfl, bfbRows_ok_names (yearOf d) (s :: rest) rows hr⟩
  · intro stocks year t h
    cases year with
    | some y =>
        rw [show liquidity_and_solvency_df stocks (some y) =
            mkTable liqCols (liqRows stocks y) from rfl] at h
        obtain ⟨rows, hr, ht⟩ := mkTable_ok_inv _ _ _ h
        subst ht
        exact ⟨rfl, liqRows_ok_names y stocks rows hr⟩
    | none =>
        cases stocks with
        | nil =>
            simp [liquidity_and_solvency_df] at h
            simp [← h, liqCols]
        | cons s rest =>
            cases hmax : maxDate s.current_ratio with
            | none => simp [liquidity_and_solvency_df, hmax] at h
            | some d =>
                simp only [liquidity_and_solvency_df, hmax] at h
                obtain ⟨rows, hr, ht⟩ := mkTable_ok_inv _ _ _ h
                subst ht
                exact ⟨rfl, liqRows_ok_names (yearOf d) (s :: rest) rows hr⟩
  · intro stocks year
    rfl
  · intro stocks y hok
    exact cccRows_ok_names y stocks hok
  · intro stocks
    refine ⟨rfl, ?_⟩
    simp [equity_analysis_df]

/-- Witness for C7 at the one-company DuPont table of `fullBfbRes`. -/
theorem table_row_and_column_order_witness :
    fullBfbTable.cols = ["profitability", "asset_turn_over", "financial_leverage",
      "return_on_equity"] ∧
    fullBfbTable.rows.map Prod.fst = [fullBfbRes].map BfbRes.name :=
  table_row_and_column_order.1 [fullBfbRes] (some 2021) fullBfbTable
    (by norm_num [bang_for_buck_df, mkTable, bfbRows, bfbCols, fullBfbRes,
      fullBfbTable, lookupYear, yearOf])

/-- Claim C8 (counterexample): `ascStock` stores its statement tables
oldest-first, and the DuPont series the engine produces for it is
newest-first — the engine reverses the storage order unconditionally
instead of sorting chronologically, so oldest-first output is not
independent of the storage order. -/
theorem ratio_series_not_storage_order_invariant :
    loc ascStock.financials "Net Income" =
      some [(20201231, EF.fin 1), (20211231, EF.fin 2)] ∧
    chronOldestFirst [(20201231, EF.fin 1), (20211231, EF.fin 2)] ∧
    bang_for_buck ascStock = .ok ascBfbRes ∧
    ¬ chronOldestFirst ascBfbRes.profitability :=
  ⟨by simp +decide [ascStock, loc, List.find?],
   by norm_num [chronOldestFirst, List.chain'_cons],
   bang_for_buck_ascStock,
   by norm_num [chronOldestFirst, ascBfbRes, List.chain'_cons]⟩

/-- Claim C8 (amended): each produced series is the positional reverse of
the source storage order, so when the statement tables are stored
newest-first (strictly descending dates, as the data source supplies
them), every DuPont and liquidity/solvency series is chronologically
oldest-first. -/
theorem ratio_series_oldest_first_when_source_newest_first
    (stock : Stock) (ds : List ℕ) (r : BfbRes) (q : LiqRes)
    (ni tr ta equity tl ebit ie tca tcl cash sti nr : Series)
    (hb : bang_for_buck stock = .ok r)
    (hq : liquidity_and_solvency stock = .ok q)
    (hni : loc stock.financials "Net Income" = some ni)
    (htr : loc stock.financials "Total Revenue" = some tr)
    (hta : loc stock.balance_sheet "Total Assets" = some ta)
    (heq : loc stock.balance_sheet "Total Stockholder Equity" = some equity)
    (htl : loc stock.balance_sheet "Total Liab" = some tl)
    (hebit : loc stock.financials "Ebit" = some ebit)
    (hie : loc stock.financials "Interest Expense" = some ie)
    (htca : loc stock.balance_sheet "Total Current Assets" = some tca)
    (htcl : loc stock.balance_sheet "Total Current Liabilities" = some tcl)
    (hcash : loc stock.balance_sheet "Cash" = some cash)
    (hsti : loc stock.balance_sheet "Short Term Investments" = some sti)
    (hnr : loc stock.balance_sheet "Net Receivables" = some nr)
    (eni : ni.map Prod.fst = ds) (etr : tr.map Prod.fst = ds)
    (eta : ta.map Prod.fst = ds) (eeq : equity.map Prod.fst = ds)
    (etl : tl.map Prod.fst = ds) (eebit : ebit.map Prod.fst = ds)
    (eie : ie.map Prod.fst = ds) (etca : tca.map Prod.fst = ds)
    (etcl : tcl.map Prod.fst = ds) (ecash : cash.map Prod.fst = ds)
    (esti : sti.map Prod.fst = ds) (enr : nr.map Prod.fst = ds)
    (hdesc : List.Chain' (· > ·) ds) :
    chronOldestFirst r.profitability ∧ chronOldestFirst r.asset_turn_over ∧
    chronOldestFirst r.financial_leverage ∧ chronOldestFirst r.return_on_equity ∧
    chronOldestFirst q.current_ratio ∧ chronOldestFirst q.quick_ratio ∧
    chronOldestFirst q.liabilities_to_equity ∧
    chronOldestFirst q.interest_coverage_ratio := by
  rw [bang_for_buck_eq stock ni tr ta equity hni htr hta heq] at hb
  rw [liquidity_and_solvency_eq stock tl equity ebit ie tca tcl cash sti nr
      htl heq hebit hie htca htcl hcash hsti hnr] at hq
  cases Except.ok.inj hb
  cases Except.ok.inj hq
  have rni : ni.reverse.map Prod.fst = ds.reverse := by rw [List.map_reverse, eni]
  have rtr : tr.reverse.map Prod.fst = ds.reverse := by rw [List.map_reverse, etr]
  have rtl : tl.reverse.map Prod.fst = ds.reverse := by rw [List.map_reverse, etl]
  have req : equity.reverse.map Prod.fst = ds.reverse := by rw [List.map_reverse, eeq]
  have rebit : ebit.reverse.map Prod.fst = ds.reverse := by rw [List.map_reverse, eebit]
  have rie : ie.reverse.map Prod.fst = ds.reverse := by rw [List.map_reverse, eie]
  have rtca : tca.reverse.map Prod.fst = ds.reverse := by rw [List.map_reverse, etca]
  have rtcl : tcl.reverse.map Prod.fst = ds.reverse := by rw [List.map_reverse, etcl]
  have rcash : cash.reverse.map Prod.fst = ds.reverse := by rw [List.map_reverse, ecash]
  have rsti : sti.reverse.map Prod.fst = ds.reverse := by rw [List.map_reverse, esti]
  have rnr : nr.reverse.map Prod.fst = ds.reverse := by rw [List.map_reverse, enr]
  have rta2 : (rolling2mean ta.reverse).map Prod.fst = ds.reverse := by
    rw [rolling2mean_map_fst, List.map_reverse, eta]
  have req2 : (rolling2mean equity.reverse).map Prod.fst = ds.reverse := by
    rw [rolling2mean_map_fst, List.map_reverse, eeq]
  have hprof := sbin_fst_eq EF.div _ _ _ rni rtr
  have hat := sbin_fst_eq EF.div _ _ _ rtr rta2
  have hfl := sbin_fst_eq EF.div _ _ _ rta2 req2
  have hroe := sbin_fst_eq EF.mul _ _ _ (sbin_fst_eq EF.mul _ _ _ hprof hat) hfl
  have hcur := sbin_fst_eq EF.div _ _ _ rtca rtcl
  have hquick := sbin_fst_eq EF.div _ _ _
    (sbin_fst_eq EF.add _ _ _ (sbin_fst_eq EF.add _ _ _ rcash rsti) rnr) rtcl
  have hlte := sbin_fst_eq EF.div _ _ _ rtl req
  have hicr := sbin_fst_eq EF.div _ _ _ rebit rie
  exact ⟨chron_of_rev _ ds hprof hdesc, chron_of_rev _ ds hat hdesc,
    chron_of_rev _ ds hfl hdesc, chron_of_rev _ ds hroe hdesc,
    chron_of_rev _ ds hcur hdesc, chron_of_rev _ ds hquick hdesc,
    chron_of_rev _ ds hlte hdesc, chron_of_rev _ ds hicr hdesc⟩

/-- Witness for the amended C8 at `fullStock` (stored newest-first). -/
theorem ratio_series_oldest_first_when_source_newest_first_witness :
    chronOldestFirst fullBfbRes.profitability ∧
    chronOldestFirst fullBfbRes.asset_turn_over ∧
    chronOldestFirst fullBfbRes.financial_leverage ∧
    chronOldestFirst fullBfbRes.return_on_equity ∧
    chronOldestFirst fullLiqRes.current_ratio ∧
    chronOldestFirst fullLiqRes.quick_ratio ∧
    chronOldestFirst fullLiqRes.liabilities_to_equity ∧
    chronOldestFirst fullLiqRes.interest_coverage_ratio :=
  ratio_series_oldest_first_when_source_newest_first fullStock
    [20211231, 20201231] fullBfbRes fullLiqRes
    [(20211231, EF.fin 2), (20201231, EF.fin 1)]
    [(20211231, EF.fin 4), (20201231, EF.fin 2)]
    [(20211231, EF.fin 10), (20201231, EF.fin 10)]
    [(20211231, EF.fin 5), (20201231, EF.fin 5)]
    [(20211231, EF.fin 5), (20201231, EF.fin 5)]
    [(20211231, EF.fin 3), (20201231, EF.fin 2)]
    [(20211231, EF.fin 1), (20201231, EF.fin 1)]
    [(20211231, EF.fin 8), (20201231, EF.fin 6)]
    [(20211231, EF.fin 4), (20201231, EF.fin 2)]
    [(20211231, EF.fin 2), (20201231, EF.fin 1)]
    [(20211231, EF.fin 1), (20201231, EF.fin 1)]
    [(20211231, EF.fin 2), (20201231, EF.fin 1)]
    bang_for_buck_fullStock liquidity_fullStock
    (by simp +decide [fullStock, loc, List.find?])
    (by simp +decide [fullStock, loc, List.find?])
    (by simp +decide [fullStock, loc, List.find?])
    (by simp +decide [fullStock, loc, List.find?])
    (by simp +decide [fullStock, loc, List.find?])
    (by simp +decide [fullStock, loc, List.find?])
    (by simp +decide [fullStock, loc, List.find?])
    (by simp +decide [fullStock, loc, List.find?])
    (by simp +decide [fullStock, loc, List.find?])
    (by simp +decide [fullStock, loc, List.find?])
    (by simp +decide [fullStock, loc, List.find?])
    (by simp +decide [fullStock, loc, List.find?])
    (by decide) (by decide) (by decide) (by decide) (by decide) (by decide)
    (by decide) (by decide) (by decide) (by decide) (by decide) (by decide)
    (by norm_num [List.chain'_cons])

/-- Claim C9 (counterexample): `qStock` has non-negative short-term
investments and net receivables, yet its quick ratio (10) exceeds its
current ratio (5), because its cash line exceeds its recorded total
current assets — the engine imposes no relation between the quick-asset
lines and "Total Current Assets". -/
theorem quick_ratio_can_exceed_current_ratio :
    loc qStock.balance_sheet "Short Term Investments" = some [(20211231, EF.fin 0)] ∧
    loc qStock.balance_sheet "Net Receivables" = some [(20211231, EF.fin 0)] ∧
    liquidity_and_solvency qStock = .ok qRes ∧
    qRes.quick_ratio = [(20211231, EF.fin 10)] ∧
    qRes.current_ratio = [(20211231, EF.fin 5)] ∧
    ¬ ((10 : ℚ) ≤ 5) :=
  ⟨by simp +decide [qStock, loc, List.find?], by simp +decide [qStock, loc, List.find?],
   liquidity_qStock, rfl, rfl, by norm_num⟩

/-- Claim C9 (amended): at every period with positive total current
liabilities where the quick assets (cash + short-term investments + net
receivables, the latter two non-negative) do not exceed the recorded total
current assets, the quick ratio is at most the current ratio. -/
theorem quick_le_current_of_quick_assets_le_current_assets
    (stock : Stock) (r : LiqRes)
    (tl equity ebit ie tca tcl cash sti nr : Series)
    (h : liquidity_and_solvency stock = .ok r)
    (h1 : loc stock.balance_sheet "Total Liab" = some tl)
    (h2 : loc stock.balance_sheet "Total Stockholder Equity" = some equity)
    (h3 : loc stock.financials "Ebit" = some ebit)
    (h4 : loc stock.financials "Interest Expense" = some ie)
    (h5 : loc stock.balance_sheet "Total Current Assets" = some tca)
    (h6 : loc stock.balance_sheet "Total Current Liabilities" = some tcl)
    (h7 : loc stock.balance_sheet "Cash" = some cash)
    (h8 : loc stock.balance_sheet "Short Term Investments" = some sti)
    (h9 : loc stock.balance_sheet "Net Receivables" = some nr)
    (t d1 d2 d3 d4 d5 : ℕ) (c s0 n a l : ℚ)
    (hc : cash.reverse[t]? = some (d1, EF.fin c))
    (hs : sti.reverse[t]? = some (d2, EF.fin s0))
    (hn : nr.reverse[t]? = some (d3, EF.fin n))
    (ha : tca.reverse[t]? = some (d4, EF.fin a))
    (hl : tcl.reverse[t]? = some (d5, EF.fin l))
    (hlpos : 0 < l) (hs0 : 0 ≤ s0) (hn0 : 0 ≤ n) (hsum : c + s0 + n ≤ a) :
    r.quick_ratio[t]? = some (d1, EF.fin ((c + s0 + n) / l)) ∧
    r.current_ratio[t]? = some (d4, EF.fin (a / l)) ∧
    (c + s0 + n) / l ≤ a / l := by
  rw [liquidity_and_solvency_eq stock tl equity ebit ie tca tcl cash sti nr
      h1 h2 h3 h4 h5 h6 h7 h8 h9] at h
  cases Except.ok.inj h
  refine ⟨?_, ?_, ?_⟩
  · have s1 := sbin_getElem EF.add _ _ t _ _ hc hs
    have s2 := sbin_getElem EF.add _ _ t _ _ s1 hn
    have s3 := sbin_getElem EF.div _ _ t _ _ s2 hl
    simpa [sdiv, sadd, EF.add, EF.div, hlpos.ne'] using s3
  · have s4 := sbin_getElem EF.div _ _ t _ _ ha hl
    simpa [sdiv, EF.div, hlpos.ne'] using s4
  · exact (div_le_div_iff_of_pos_right hlpos).mpr hsum

/-- Witness for the amended C9 at `fullStock`, period index 1. -/
theorem quick_le_current_witness :
    fullLiqRes.quick_ratio[1]? = some (20211231, EF.fin ((2 + 1 + 2) / 4)) ∧
    fullLiqRes.current_ratio[1]? = some (20211231, EF.fin ((8 : ℚ) / 4)) ∧
    ((2 : ℚ) + 1 + 2) / 4 ≤ 8 / 4 :=
  quick_le_current_of_quick_assets_le_current_assets fullStock fullLiqRes
    [(20211231, EF.fin 5), (20201231, EF.fin 5)]
    [(20211231, EF.fin 5), (20201231, EF.fin 5)]
    [(20211231, EF.fin 3), (20201231, EF.fin 2)]
    [(20211231, EF.fin 1), (20201231, EF.fin 1)]
    [(20211231, EF.fin 8), (20201231, EF.fin 6)]
    [(20211231, EF.fin 4), (20201231, EF.fin 2)]
    [(20211231, EF.fin 2), (20201231, EF.fin 1)]
    [(20211231, EF.fin 1), (20201231, EF.fin 1)]
    [(20211231, EF.fin 2), (20201231, EF.fin 1)]
    liquidity_fullStock
    (by simp +decide [fullStock, loc, List.find?])
    (by simp +decide [fullStock, loc, List.find?])
    (by simp +decide [fullStock, loc, List.find?])
    (by simp +decide [fullStock, loc, List.find?])
    (by simp +decide [fullStock, loc, List.find?])
    (by simp +decide [fullStock, loc, List.find?])
    (by simp +decide [fullStock, loc, List.find?])
    (by simp +decide [fullStock, loc, List.find?])
    (by simp +decide [fullStock, loc, List.find?])
    1 20211231 20211231 20211231 20211231 20211231 2 1 2 8 4
    (by norm_num) (by norm_num) (by norm_num) (by norm_num) (by norm_num)
    (by norm_num) (by norm_num) (by norm_num) (by norm_num)

/-- Claim C10: in cash-conversion table construction, a failing year
lookup at the k-th company leaves the earlier companies' computed values
in place, gives the k-th company the single value 0, and silently drops
every company supplied after it from the table. -/
theorem ccc_failure_drops_subsequent_companies
    (pre : List CCCRes) (f : CCCRes) (post : List CCCRes) (y : ℕ) (w : CCCRes → EF)
    (hpre : ∀ s ∈ pre, cccLookup s.cash_conversion_cycle y = some (w s))
    (hf : cccLookup f.cash_conversion_cycle y = none)
    (hnd : ((pre ++ f :: post).map CCCRes.name).Nodup) :
    (cash_conversion_cycle_df (pre ++ f :: post) (some y)).rows.map Prod.fst =
      pre.map CCCRes.name ++ [f.name] ∧
    ∀ q ∈ post, q.name ∉
      ((cash_conversion_cycle_df (pre ++ f :: post) (some y)).rows.map Prod.fst) := by
  have hrows := cccRows_prefix_fail y w pre f post hpre hf
  have hfst : (cash_conversion_cycle_df (pre ++ f :: post) (some y)).rows.map Prod.fst =
      pre.map CCCRes.name ++ [f.name] := by
    simp [cash_conversion_cycle_df, hrows]
  refine ⟨hfst, ?_⟩
  intro q hq
  rw [hfst]
  simp only [List.map_append, List.map_cons] at hnd
  rcases List.nodup_append.mp hnd with ⟨hA, hBC, hdisj⟩
  have hfname : f.name ∉ post.map CCCRes.name := (List.nodup_cons.mp hBC).1
  have hqmem : q.name ∈ post.map CCCRes.name := List.mem_map_of_mem CCCRes.name hq
  intro hmem
  rcases List.mem_append.mp hmem with hin | hin
  · exact hdisj hin (List.mem_cons_of_mem _ hqmem)
  · have hq_eq : q.name = f.name := by simpa using hin
    exact hfname (hq_eq ▸ hqmem)

/-- Witness for C10: `postC` (supplied after the failing `failC`) is
absent from the produced table. -/
theorem ccc_failure_drops_subsequent_companies_witness :
    (cash_conversion_cycle_df [okC, failC, postC] (some 2021)).rows.map Prod.fst =
      [okC].map CCCRes.name ++ [failC.name] ∧
    ∀ q ∈ [postC], q.name ∉
      ((cash_conversion_cycle_df [okC, failC, postC] (some 2021)).rows.map Prod.fst) :=
  ccc_failure_drops_subsequent_companies [okC] failC [postC] 2021 (fun _ => EF.fin 5)
    (by
      intro s hs
      simp only [List.mem_singleton] at hs
      subst hs
      norm_num [okC, cccLookup, lookupYear, yearOf])
    (by norm_num [failC, cccLookup, lookupYear, yearOf])
    (by decide)

end FinStats
